import Mathlib

/-!
Shallow embedding of the chunked media ingestion and transcode-publish
pipeline of the gaza-name-project backend
(apps/backend/src/routes/uploadRoutes.ts, apps/backend/src/db.ts,
apps/backend/src/index.ts), together with theorems settling the
specification claims about it.

JavaScript three-valued array slots (undefined / null / Buffer) are
modelled explicitly, because the code distinguishes them
(`new Array(n).fill(null)` for empty slots versus the
`chunk === undefined` completeness test in the finalize route).
-/

set_option autoImplicit false

namespace GazaNameProject

/-- A slot of the JS `chunks` array: `undefined` (a sparse hole), `null`
(the fill value for an unreceived chunk), or a `Buffer` of bytes. -/
inductive Slot where
  | jsUndefined
  | jsNull
  | buf (bytes : List Nat)
deriving Repr, DecidableEq

/-- Truthiness of a slot in JS: only a Buffer object is truthy
(`chunks.filter(Boolean)`). -/
def Slot.truthy : Slot → Bool
  | Slot.buf _ => true
  | _ => false

/-- One entry of the `uploadChunks` map in uploadRoutes.ts. -/
structure UploadSession where
  chunks : List Slot
  totalChunks : Nat
  lastActivity : Nat
  selectedNameId : Nat
  fileName : String
deriving Repr, DecidableEq

/-- The `uploadChunks` map (`Map<string, {...}>`), modelled as an
association list keyed by `uploadId`. -/
def ChunkStore := List (String × UploadSession)

/-- `Map.prototype.get`. -/
def storeFind (store : ChunkStore) (key : String) : Option UploadSession :=
  match store with
  | [] => none
  | (k, u) :: rest => if k = key then some u else storeFind rest key

/-- `Map.prototype.set`: replace the entry for `key`, or append it. -/
def storeSet (store : ChunkStore) (key : String) (u : UploadSession) : ChunkStore :=
  match store with
  | [] => [(key, u)]
  | (k, u0) :: rest => if k = key then (key, u) :: rest else (k, u0) :: storeSet rest key u

/-- `Map.prototype.delete`. -/
def storeErase (store : ChunkStore) (key : String) : ChunkStore :=
  match store with
  | [] => []
  | (k, u0) :: rest => if k = key then rest else (k, u0) :: storeErase rest key

/-- JS array element assignment `a[i] = v`: in-range assignment replaces
the element; out-of-range assignment extends the array, padding the gap
with `undefined` holes. -/
def jsArraySet (l : List Slot) (i : Nat) (v : Slot) : List Slot :=
  if i < l.length then l.set i v
  else l ++ List.replicate (i - l.length) Slot.jsUndefined ++ [v]

/-- Response body of POST /upload-video-chunk on the 200 path. -/
structure ChunkResponse where
  status : Nat
  isComplete : Bool
  receivedChunks : Nat
  totalChunks : Nat
deriving Repr, DecidableEq

/-- The happy path of the POST /upload-video-chunk handler (all required
fields present, a chunk file attached): create the session on first
contact (`new Array(totalChunks).fill(null)`), refresh `lastActivity`,
store the chunk at its index, and report completeness
(`every(chunk => chunk !== null)`) and the received count
(`filter(Boolean).length`). -/
def receiveChunk (store : ChunkStore) (uploadId : String) (chunkIndex totalChunks : Nat)
    (bytes : List Nat) (selectedNameId : Nat) (fileName : String) (now : Nat) :
    ChunkResponse × ChunkStore :=
  let u0 : UploadSession :=
    match storeFind store uploadId with
    | some u => u
    | none =>
      { chunks := List.replicate totalChunks Slot.jsNull
        totalChunks := totalChunks
        lastActivity := now
        selectedNameId := selectedNameId
        fileName := fileName }
  let u1 : UploadSession :=
    { u0 with
      lastActivity := now
      chunks := jsArraySet u0.chunks chunkIndex (Slot.buf bytes) }
  let isComplete := u1.chunks.all (fun c => !(c == Slot.jsNull))
  let receivedChunks := (u1.chunks.filter Slot.truthy).length
  (⟨200, isComplete, receivedChunks, u1.totalChunks⟩, storeSet store uploadId u1)

/-! ## Record store (db.ts) -/

/-- The fields of a `martyrs` row that the pipeline touches. -/
structure MartyrRecord where
  enName : String
  isRecorded : Bool
  recordedAt : Option Nat
  processedAudioPath : Option String
  processedVideoPath : Option String
deriving Repr, DecidableEq

/-- The `martyrs` table, keyed by `db_id`. -/
def DB := List (Nat × MartyrRecord)

/-- Row lookup by `db_id`. -/
def dbFind (db : DB) (dbId : Nat) : Option MartyrRecord :=
  match db with
  | [] => none
  | (k, r) :: rest => if k = dbId then some r else dbFind rest dbId

/-- Row replacement by `db_id` (UPDATE of an existing row; no insert). -/
def dbSet (db : DB) (dbId : Nat) (r : MartyrRecord) : DB :=
  match db with
  | [] => []
  | (k, r0) :: rest => if k = dbId then (dbId, r) :: rest else (k, r0) :: dbSet rest dbId r

/-- The `{ success, message }` result value of the db.ts mutation helpers. -/
structure DbResult where
  success : Bool
  message : String
deriving Repr, DecidableEq

/-- `markNameAsRecorded` (db.ts): a conditional update
`SET is_recorded = TRUE, recorded_at = CURRENT_TIMESTAMP WHERE db_id = $1
AND is_recorded = FALSE`; a JS-falsy id (0) is rejected up front, and when
no row was updated the follow-up SELECT distinguishes an already-recorded
row from a missing one. -/
def markNameAsRecorded (db : DB) (dbId : Nat) (now : Nat) : DB × DbResult :=
  if dbId = 0 then (db, ⟨false, "No ID provided."⟩)
  else
    match dbFind db dbId with
    | some r =>
      if r.isRecorded then (db, ⟨false, "Name was already recorded."⟩)
      else
        (dbSet db dbId { r with isRecorded := true, recordedAt := some now },
         ⟨true, "Marked " ++ r.enName ++ " as recorded."⟩)
    | none => (db, ⟨false, "No unrecorded name found."⟩)

/-- `markNameAsUnrecorded` (db.ts): the unconditional update
`SET is_recorded = FALSE, recorded_at = NULL, processed_audio_path = NULL
WHERE db_id = $1`. Note that `processed_video_path` is not part of the
UPDATE list. -/
def markNameAsUnrecorded (db : DB) (dbId : Nat) : DB × DbResult :=
  if dbId = 0 then (db, ⟨false, "No ID provided."⟩)
  else
    match dbFind db dbId with
    | some r =>
      (dbSet db dbId { r with isRecorded := false, recordedAt := none, processedAudioPath := none },
       ⟨true, "Marked " ++ r.enName ++ " as unrecorded."⟩)
    | none => (db, ⟨false, "No name found with that ID."⟩)

/-- `updateProcessedVideoPath` (db.ts):
`UPDATE martyrs SET processed_video_path = $2 WHERE db_id = $1`
(reports success even when no row matches). -/
def updateProcessedVideoPath (db : DB) (dbId : Nat) (filePath : String) : DB × DbResult :=
  if dbId = 0 ∨ filePath = "" then (db, ⟨false, "Missing ID or path."⟩)
  else
    match dbFind db dbId with
    | some r => (dbSet db dbId { r with processedVideoPath := some filePath }, ⟨true, "Updated video path."⟩)
    | none => (db, ⟨true, "Updated video path."⟩)

/-! ## Finalize route (POST /finalize-video-upload, uploadRoutes.ts) -/

/-- HTTP status and message of a finalize response. -/
structure FinalizeResult where
  status : Nat
  message : String
deriving Repr, DecidableEq

/-- `Buffer.concat` over the slot array: throws a TypeError as soon as an
element is not a Buffer (`null` and `undefined` slots both throw). -/
def bufferConcat (l : List Slot) : Except String (List Nat) :=
  match l with
  | [] => Except.ok []
  | Slot.buf b :: rest => (bufferConcat rest).map (fun acc => b ++ acc)
  | _ :: _ => Except.error "TypeError: list argument must contain only Buffers"

/-- The POST /finalize-video-upload handler: a 404 for an unknown
`uploadId`; a 400 when some slot is `undefined` (the code's completeness
test is `chunk === undefined`); otherwise the try block concatenates the
chunks and uploads the file (`uploadFileResult` stands for the fallible
write/upload step), commits via `markNameAsRecorded` and
`updateProcessedVideoPath` and deletes the session, while the catch block
runs `markNameAsUnrecorded` and also deletes the session. -/
def finalizeVideoUpload (store : ChunkStore) (db : DB) (uploadId : String)
    (uploadFileResult : Except String Unit) (now : Nat) :
    FinalizeResult × ChunkStore × DB :=
  match storeFind store uploadId with
  | none => (⟨404, "Upload not found"⟩, store, db)
  | some u =>
    if u.chunks.any (fun c => c == Slot.jsUndefined) then
      (⟨400, "Not all chunks received"⟩, store, db)
    else
      match bufferConcat u.chunks with
      | Except.error _ =>
        let step := markNameAsUnrecorded db u.selectedNameId
        (⟨500, "Error uploading video"⟩, storeErase store uploadId, step.1)
      | Except.ok _ =>
        match uploadFileResult with
        | Except.error _ =>
          let step := markNameAsUnrecorded db u.selectedNameId
          (⟨500, "Error uploading video"⟩, storeErase store uploadId, step.1)
        | Except.ok _ =>
          let objectName := "video/" ++ toString u.selectedNameId ++ "/" ++ u.fileName
          let step1 := markNameAsRecorded db u.selectedNameId now
          let step2 := updateProcessedVideoPath step1.1 u.selectedNameId objectName
          (⟨200, "Video uploaded successfully"⟩, storeErase store uploadId, step2.1)

/-! ## Retry helper (uploadRoutes.ts, `retryOperation`) -/

/-- The message of the error thrown when every attempt failed:
`` `${operationName} failed after ${maxRetries} attempts. Last error:
${lastError?.message}` `` (a never-assigned `lastError` prints as
`undefined`). -/
def retryFailMsg (operationName : String) (maxRetries : Nat) (lastErr : Option String) : String :=
  operationName ++ " failed after " ++ toString maxRetries ++ " attempts. Last error: " ++
    (match lastErr with
     | some m => m
     | none => "undefined")

/-- The body of the `for attempt = 1..maxRetries` loop of
`retryOperation`. `op attempt` is the outcome of the attempt-th
invocation; the returned triple is the final outcome, the number of
invocations of `op`, and the list of `sleep` delays taken (one `sleep
delayMs` after each failed attempt except the last). `fuel` counts the
loop iterations still allowed, i.e. `maxRetries - attempt + 1`. -/
def retryAux {α : Type} (op : Nat → Except String α) (maxRetries delayMs : Nat)
    (operationName : String) (attempt : Nat) (lastErr : Option String) (fuel : Nat) :
    Except String α × Nat × List Nat :=
  match fuel with
  | 0 => (Except.error (retryFailMsg operationName maxRetries lastErr), 0, [])
  | fuel + 1 =>
    match op attempt with
    | Except.ok v => (Except.ok v, 1, [])
    | Except.error e =>
      let rest := retryAux op maxRetries delayMs operationName (attempt + 1) (some e) fuel
      (rest.1, rest.2.1 + 1, (if attempt < maxRetries then [delayMs] else []) ++ rest.2.2)

/-- `retryOperation(operation, maxRetries, delayMs, operationName, _)`:
returns the first success, retrying up to `maxRetries` times with a
`delayMs` sleep between consecutive attempts, and throws the aggregated
error when every attempt failed. -/
def retryOperation {α : Type} (op : Nat → Except String α) (maxRetries delayMs : Nat)
    (operationName : String) : Except String α × Nat × List Nat :=
  retryAux op maxRetries delayMs operationName 1 none maxRetries

/-! ## Process-video pipeline (POST /process-video, uploadRoutes.ts) -/

/-- Outcomes of the external steps of one POST /process-video request,
each already wrapped in its own retry/timeout policy: the MinIO download,
the WebM remux (`.error "Remux timed out"` on timeout), the HLS transcode
(`.error "FFmpeg processing timed out"` on timeout), the manifest upload,
and the per-segment uploads of the `.ts` segment files found in the
output directory. -/
structure PipelineEnv where
  downloadResult : Except String Unit
  remuxResult : Except String Unit
  transcodeResult : Except String Unit
  manifestUploadResult : Except String Unit
  segments : List String
  segmentUploadResult : String → Except String Unit

/-- The observable actions of one pipeline run, in program order. -/
inductive PipelineAct where
  | uploadManifest
  | uploadSegment (name : String)
  | markRecorded
  | updateVideoPath
  | markUnrecorded
deriving Repr, DecidableEq

/-- Whether an `Except` is a success. -/
def exceptOk {ε α : Type} : Except ε α → Bool
  | Except.ok _ => true
  | Except.error _ => false

/-- The POST /process-video handler, given the outcomes of its external
steps: download, remux and transcode failures reject into the outer catch
(one `markNameAsUnrecorded`); a manifest or segment upload failure runs
the inner catch (`markNameAsUnrecorded`) and then rejects into the outer
catch (a second `markNameAsUnrecorded`); only after `Promise.all` of the
segment uploads succeeds are `markNameAsRecorded` and
`updateProcessedVideoPath` invoked, then the handler responds 200.
Returns the HTTP status, the final record store, and the action trace. -/
def processVideo (db : DB) (selectedNameId : Nat) (env : PipelineEnv) (now : Nat) :
    Nat × DB × List PipelineAct :=
  match env.downloadResult with
  | Except.error _ => (500, (markNameAsUnrecorded db selectedNameId).1, [PipelineAct.markUnrecorded])
  | Except.ok _ =>
  match env.remuxResult with
  | Except.error _ => (500, (markNameAsUnrecorded db selectedNameId).1, [PipelineAct.markUnrecorded])
  | Except.ok _ =>
  match env.transcodeResult with
  | Except.error _ => (500, (markNameAsUnrecorded db selectedNameId).1, [PipelineAct.markUnrecorded])
  | Except.ok _ =>
  match env.manifestUploadResult with
  | Except.error _ =>
    let db1 := (markNameAsUnrecorded db selectedNameId).1
    let db2 := (markNameAsUnrecorded db1 selectedNameId).1
    (500, db2, [PipelineAct.uploadManifest, PipelineAct.markUnrecorded, PipelineAct.markUnrecorded])
  | Except.ok _ =>
    let segActs := env.segments.map PipelineAct.uploadSegment
    if env.segments.all (fun s => exceptOk (env.segmentUploadResult s)) then
      let manifestObjectName := "video/" ++ toString selectedNameId ++ "/manifest.m3u8"
      let step1 := markNameAsRecorded db selectedNameId now
      let step2 := updateProcessedVideoPath step1.1 selectedNameId manifestObjectName
      (200, step2.1,
        PipelineAct.uploadManifest :: segActs ++ [PipelineAct.markRecorded, PipelineAct.updateVideoPath])
    else
      let db1 := (markNameAsUnrecorded db selectedNameId).1
      let db2 := (markNameAsUnrecorded db1 selectedNameId).1
      (500, db2,
        PipelineAct.uploadManifest :: segActs ++ [PipelineAct.markUnrecorded, PipelineAct.markUnrecorded])

/-! ## Media retrieval endpoints (index.ts) -/

/-- One character of the whitelist `[a-zA-Z0-9_.-]`. -/
def isSafeFilenameChar (c : Char) : Bool :=
  (('a' ≤ c && c ≤ 'z') || ('A' ≤ c && c ≤ 'Z') || ('0' ≤ c && c ≤ '9')
   || c = '_' || c = '.' || c = '-')

/-- `filename.includes('..')` on the character list. -/
def hasDotDot : List Char → Bool
  | c1 :: c2 :: rest => (c1 = '.' && c2 = '.') || hasDotDot (c2 :: rest)
  | _ => false

/-- The filename guard of GET /api/audio/:filename and
GET /api/video/:filename: non-empty, no `..`, no `/`, no `\`, and a full
match of `/^[a-zA-Z0-9_.-]+$/`. -/
def validFilename (s : String) : Bool :=
  !(s.toList.isEmpty) && !(hasDotDot s.toList) && !(s.toList.contains '/')
    && !(s.toList.contains '\\') && s.toList.all isSafeFilenameChar

/-- Response of a media retrieval endpoint. -/
inductive MediaResponse where
  | badRequest (msg : String)
  | redirect (url : String)
  | serverError (msg : String)
deriving Repr, DecidableEq

/-- GET /api/audio/:filename: reject invalid filenames with 400, else
look up a presigned URL for `audio/<filename>` and redirect. The second
component lists the object names passed to `getFileUrl`. -/
def getAudioByFilename (getFileUrl : String → Except String String) (filename : String) :
    MediaResponse × List String :=
  if !(validFilename filename) then (MediaResponse.badRequest "Invalid filename.", [])
  else
    let objectName := "audio/" ++ filename
    match getFileUrl objectName with
    | Except.ok url => (MediaResponse.redirect url, [objectName])
    | Except.error _ => (MediaResponse.serverError "Error retrieving audio file.", [objectName])

/-- GET /api/video/:filename, same guard with the `video/` prefix. -/
def getVideoByFilename (getFileUrl : String → Except String String) (filename : String) :
    MediaResponse × List String :=
  if !(validFilename filename) then (MediaResponse.badRequest "Invalid filename.", [])
  else
    let objectName := "video/" ++ filename
    match getFileUrl objectName with
    | Except.ok url => (MediaResponse.redirect url, [objectName])
    | Except.error _ => (MediaResponse.serverError "Error retrieving video file.", [objectName])

/-! ## Derived definitions and concrete fixtures -/

instance : DecidableEq ChunkStore :=
  inferInstanceAs (DecidableEq (List (String × UploadSession)))

instance : DecidableEq DB :=
  inferInstanceAs (DecidableEq (List (Nat × MartyrRecord)))

/-- A well-formed chunk store: every session's slot array has exactly
`totalChunks` entries. -/
def storeWF (store : ChunkStore) : Prop :=
  ∀ id u, storeFind store id = some u → u.chunks.length = u.totalChunks

/-- The `totalChunks` that governs a `receiveChunk` call: the one fixed at
session creation when the session already exists, else the request's. -/
def sessionTotal (store : ChunkStore) (uploadId : String) (fallback : Nat) : Nat :=
  match storeFind store uploadId with
  | some u => u.totalChunks
  | none => fallback

/-- The session written back by `receiveChunk`. -/
def receivedSession (store : ChunkStore) (uploadId : String) (chunkIndex totalChunks : Nat)
    (bytes : List Nat) (selectedNameId : Nat) (fileName : String) (now : Nat) : UploadSession :=
  let u0 : UploadSession :=
    match storeFind store uploadId with
    | some u => u
    | none =>
      { chunks := List.replicate totalChunks Slot.jsNull
        totalChunks := totalChunks
        lastActivity := now
        selectedNameId := selectedNameId
        fileName := fileName }
  { u0 with
    lastActivity := now
    chunks := jsArraySet u0.chunks chunkIndex (Slot.buf bytes) }

/-- One of the four injected stage failures of the spec: remux failure
(which also covers the remux timeout error), transcode failure, transcode
timeout, or publish failure (manifest upload or some segment upload
failing after its retries), with every earlier stage succeeding. -/
def stageFailureInjected (env : PipelineEnv) : Prop :=
  exceptOk env.downloadResult = true ∧
  ((∃ e, env.remuxResult = Except.error e)
   ∨ (exceptOk env.remuxResult = true ∧ ∃ e, env.transcodeResult = Except.error e)
   ∨ (exceptOk env.remuxResult = true ∧ exceptOk env.transcodeResult = true ∧
      ((∃ e, env.manifestUploadResult = Except.error e)
       ∨ (exceptOk env.manifestUploadResult = true ∧
          ∃ s ∈ env.segments, exceptOk (env.segmentUploadResult s) = false))))

/-- A store holding one session for `"abc"`: `totalChunks = 2`, chunk 0
received, chunk 1 never received (so its slot is the JS `null` fill
value). -/
def storeC1 : ChunkStore := (receiveChunk [] "abc" 0 2 [1, 2, 3] 7 "clip.webm" 10).2

/-- Record 7 before the finalize attempt: unrecorded, with a previously
processed audio path. -/
def dbC1 : DB := [(7, ⟨"Gaza Name", false, none, some "audio/prev.wav", none⟩)]

/-- A complete two-chunk session for `"xyz"`. -/
def storeC3 : ChunkStore :=
  (receiveChunk (receiveChunk [] "xyz" 0 2 [10] 8 "v.webm" 0).2 "xyz" 1 2 [20] 8 "v.webm" 1).2

/-- Record 8 before the finalize attempt. -/
def dbC3 : DB := [(8, ⟨"Other Name", false, none, none, none⟩)]

/-- A pipeline environment whose remux step fails, everything before it
succeeding. -/
def envRemuxFail : PipelineEnv :=
  { downloadResult := Except.ok ()
    remuxResult := Except.error "ffmpeg remux crashed"
    transcodeResult := Except.ok ()
    manifestUploadResult := Except.ok ()
    segments := []
    segmentUploadResult := fun _ => Except.ok () }

/-- Record 1 before the attempt: already recorded, with an audio path. -/
def dbC2 : DB := [(1, ⟨"Recorded Name", true, some 5, some "audio/c.wav", none⟩)]

/-- Record 2 before the attempt: recorded, with a processed video path. -/
def dbC4 : DB := [(2, ⟨"Video Name", true, some 3, none, some "video/2/manifest.m3u8"⟩)]

/-- A pipeline environment reaching the segment-upload stage with three
segments, the second of which fails all its retries. -/
def envW5 : PipelineEnv :=
  { downloadResult := Except.ok ()
    remuxResult := Except.ok ()
    transcodeResult := Except.ok ()
    manifestUploadResult := Except.ok ()
    segments := ["seg0.ts", "seg1.ts", "seg2.ts"]
    segmentUploadResult := fun t => if t = "seg1.ts" then Except.error "upload failed" else Except.ok () }

/-- A pipeline environment whose transcode step times out. -/
def envW2 : PipelineEnv :=
  { downloadResult := Except.ok ()
    remuxResult := Except.ok ()
    transcodeResult := Except.error "FFmpeg processing timed out"
    manifestUploadResult := Except.ok ()
    segments := []
    segmentUploadResult := fun _ => Except.ok () }

/-- Record 2 before the attempt of the rollback witness: unrecorded. -/
def dbW2 : DB := [(2, ⟨"Witness Name", false, none, some "audio/w.wav", none⟩)]

/-- A store holding one complete single-chunk session for `"w"`. -/
def storeW3 : ChunkStore := [("w", ⟨[Slot.buf [1]], 1, 0, 4, "w.webm"⟩)]

/-- A db with record 5 recorded and both paths set. -/
def dbW4 : DB := [(5, ⟨"Joe", true, some 1, some "audio/j.wav", some "video/5/m.m3u8"⟩)]

/-- A db with record 3 already recorded. -/
def dbW8 : DB := [(3, ⟨"Alpha", true, some 2, none, none⟩)]

/-! ## Helper lemmas -/

theorem storeFind_storeSet_self (store : ChunkStore) (k : String) (u : UploadSession) :
    storeFind (storeSet store k u) k = some u := by
  induction store with
  | nil => simp [storeSet, storeFind]
  | cons p rest ih =>
    obtain ⟨k0, u0⟩ := p
    by_cases h : k0 = k
    · simp [storeSet, storeFind, h]
    · simp [storeSet, storeFind, h, ih]

theorem storeFind_storeSet_ne (store : ChunkStore) (k k2 : String) (u : UploadSession)
    (h : k2 ≠ k) : storeFind (storeSet store k u) k2 = storeFind store k2 := by
  have hk : ¬k = k2 := fun hh => h hh.symm
  induction store with
  | nil => simp [storeSet, storeFind, hk]
  | cons p rest ih =>
    obtain ⟨k0, u0⟩ := p
    by_cases h0 : k0 = k
    · subst h0
      simp [storeSet, storeFind, hk]
    · simp [storeSet, storeFind, h0, ih]

theorem storeSet_storeSet (store : ChunkStore) (k : String) (u v : UploadSession) :
    storeSet (storeSet store k u) k v = storeSet store k v := by
  induction store with
  | nil => simp [storeSet]
  | cons p rest ih =>
    obtain ⟨k0, u0⟩ := p
    by_cases h : k0 = k
    · simp [storeSet, h]
    · simp [storeSet, h, ih]

theorem dbFind_dbSet_self (db : DB) (k : Nat) (r r0 : MartyrRecord)
    (h : dbFind db k = some r0) : dbFind (dbSet db k r) k = some r := by
  induction db with
  | nil => simp [dbFind] at h
  | cons p rest ih =>
    obtain ⟨k0, q0⟩ := p
    by_cases h0 : k0 = k
    · simp [dbSet, dbFind, h0]
    · simp [dbFind, h0] at h
      simp [dbSet, dbFind, h0, ih h]

theorem set_append_length (l1 l2 : List Slot) (a b : Slot) :
    (l1 ++ a :: l2).set l1.length b = l1 ++ b :: l2 := by
  induction l1 with
  | nil => rfl
  | cons x xs ih =>
    have step : ((x :: xs) ++ a :: l2).set (x :: xs).length b =
        x :: ((xs ++ a :: l2).set xs.length b) := rfl
    rw [step, ih]
    rfl

theorem jsArraySet_length_of_lt (l : List Slot) (i : Nat) (v : Slot) (h : i < l.length) :
    (jsArraySet l i v).length = l.length := by
  simp [jsArraySet, h]

theorem jsArraySet_jsArraySet (l : List Slot) (i : Nat) (v w : Slot) :
    jsArraySet (jsArraySet l i v) i w = jsArraySet l i w := by
  by_cases h : i < l.length
  · simp [jsArraySet, h, List.length_set]
  · have hge : l.length ≤ i := Nat.le_of_not_lt h
    have hlen1 : (l ++ List.replicate (i - l.length) Slot.jsUndefined).length = i := by
      simp only [List.length_append, List.length_replicate]
      omega
    have e1 : jsArraySet l i v = l ++ List.replicate (i - l.length) Slot.jsUndefined ++ [v] := by
      simp [jsArraySet, h]
    have e2 : jsArraySet l i w = l ++ List.replicate (i - l.length) Slot.jsUndefined ++ [w] := by
      simp [jsArraySet, h]
    have h2 : i < (l ++ List.replicate (i - l.length) Slot.jsUndefined ++ [v]).length := by
      simp only [List.length_append, List.length_replicate, List.length_cons, List.length_nil]
      omega
    have e3 : jsArraySet (l ++ List.replicate (i - l.length) Slot.jsUndefined ++ [v]) i w
        = (l ++ List.replicate (i - l.length) Slot.jsUndefined ++ [v]).set i w := by
      unfold jsArraySet
      rw [if_pos h2]
    rw [e1, e3, e2]
    nth_rewrite 2 [← hlen1]
    exact set_append_length _ [] v w

theorem dbFind_markNameAsUnrecorded (db : DB) (dbId : Nat) (r : MartyrRecord)
    (h0 : dbId ≠ 0) (hr : dbFind db dbId = some r) :
    dbFind (markNameAsUnrecorded db dbId).1 dbId =
      some { r with isRecorded := false, recordedAt := none, processedAudioPath := none } := by
  simp only [markNameAsUnrecorded, if_neg h0, hr]
  exact dbFind_dbSet_self db dbId _ r hr

theorem receiveChunk_eq (store : ChunkStore) (uploadId : String) (chunkIndex totalChunks : Nat)
    (bytes : List Nat) (selectedNameId : Nat) (fileName : String) (now : Nat) :
    receiveChunk store uploadId chunkIndex totalChunks bytes selectedNameId fileName now =
      (⟨200,
        (receivedSession store uploadId chunkIndex totalChunks bytes selectedNameId fileName now).chunks.all
          (fun c => !(c == Slot.jsNull)),
        ((receivedSession store uploadId chunkIndex totalChunks bytes selectedNameId fileName now).chunks.filter
          Slot.truthy).length,
        (receivedSession store uploadId chunkIndex totalChunks bytes selectedNameId fileName now).totalChunks⟩,
       storeSet store uploadId
         (receivedSession store uploadId chunkIndex totalChunks bytes selectedNameId fileName now)) := by
  simp only [receiveChunk, receivedSession]

theorem receivedSession_length (store : ChunkStore) (uploadId : String)
    (chunkIndex totalChunks : Nat) (bytes : List Nat) (selectedNameId : Nat) (fileName : String)
    (now : Nat) (hwf : storeWF store)
    (hidx : chunkIndex < sessionTotal store uploadId totalChunks) :
    (receivedSession store uploadId chunkIndex totalChunks bytes selectedNameId fileName now).chunks.length =
      (receivedSession store uploadId chunkIndex totalChunks bytes selectedNameId fileName now).totalChunks ∧
    (receivedSession store uploadId chunkIndex totalChunks bytes selectedNameId fileName now).totalChunks =
      sessionTotal store uploadId totalChunks := by
  cases h : storeFind store uploadId with
  | some u =>
    have hlen : u.chunks.length = u.totalChunks := hwf uploadId u h
    have hidx2 : chunkIndex < u.chunks.length := by
      rw [hlen]
      simpa [sessionTotal, h] using hidx
    simp [receivedSession, h, jsArraySet_length_of_lt _ _ _ hidx2, hlen, sessionTotal]
  | none =>
    have hidx2 : chunkIndex < (List.replicate totalChunks Slot.jsNull).length := by
      simpa [sessionTotal, h] using hidx
    simp [receivedSession, h, jsArraySet_length_of_lt _ _ _ hidx2, sessionTotal]

theorem retryAux_invocations_le {α : Type} (op : Nat → Except String α)
    (maxRetries delayMs : Nat) (operationName : String) :
    ∀ (fuel attempt : Nat) (lastErr : Option String),
      (retryAux op maxRetries delayMs operationName attempt lastErr fuel).2.1 ≤ fuel := by
  intro fuel
  induction fuel with
  | zero => intro attempt lastErr; simp [retryAux]
  | succ n ih =>
    intro attempt lastErr
    simp only [retryAux]
    cases op attempt with
    | ok v => simp
    | error e =>
      have := ih (attempt + 1) (some e)
      simp only
      omega

theorem retryAux_first_success {α : Type} (op : Nat → Except String α)
    (maxRetries delayMs : Nat) (operationName : String) :
    ∀ (fuel attempt : Nat) (lastErr : Option String) (k : Nat) (v : α),
      attempt ≤ k → k < attempt + fuel → k ≤ maxRetries → op k = Except.ok v →
      (∀ j, attempt ≤ j → j < k → ∃ e, op j = Except.error e) →
      retryAux op maxRetries delayMs operationName attempt lastErr fuel =
        (Except.ok v, k - attempt + 1, List.replicate (k - attempt) delayMs) := by
  intro fuel
  induction fuel with
  | zero =>
    intro attempt lastErr k v h1 h2 h3 h4 h5
    omega
  | succ n ih =>
    intro attempt lastErr k v h1 h2 h3 h4 h5
    by_cases hk : attempt = k
    · subst hk
      simp [retryAux, h4]
    · have hlt : attempt < k := Nat.lt_of_le_of_ne h1 hk
      obtain ⟨e, he⟩ := h5 attempt (Nat.le_refl _) hlt
      have hrec := ih (attempt + 1) (some e) k v hlt (by omega) h3 h4
        (fun j hj1 hj2 => h5 j (by omega) hj2)
      have hsleep : attempt < maxRetries := by omega
      simp only [retryAux, he, hrec, if_pos hsleep]
      have harith : k - (attempt + 1) + 1 + 1 = k - attempt + 1 := by omega
      have hrep : delayMs :: List.replicate (k - (attempt + 1)) delayMs =
          List.replicate (k - attempt) delayMs := by
        have : k - attempt = (k - (attempt + 1)) + 1 := by omega
        rw [this, List.replicate_succ]
      simp [harith, ← hrep]

theorem retryAux_all_fail {α : Type} (op : Nat → Except String α)
    (maxRetries delayMs : Nat) (operationName : String) (es : Nat → String) :
    ∀ (fuel attempt : Nat) (lastErr : Option String),
      attempt + fuel = maxRetries + 1 →
      (∀ j, attempt ≤ j → j ≤ maxRetries → op j = Except.error (es j)) →
      (fuel = 0 → lastErr = some (es maxRetries)) →
      retryAux op maxRetries delayMs operationName attempt lastErr fuel =
        (Except.error (retryFailMsg operationName maxRetries (some (es maxRetries))), fuel,
         List.replicate (fuel - 1) delayMs) := by
  intro fuel
  induction fuel with
  | zero =>
    intro attempt lastErr hinv hall hlast
    simp [retryAux, hlast rfl]
  | succ n ih =>
    intro attempt lastErr hinv hall hlast
    have hatt : attempt ≤ maxRetries := by omega
    have he : op attempt = Except.error (es attempt) := hall attempt (Nat.le_refl _) hatt
    have hrec := ih (attempt + 1) (some (es attempt)) (by omega)
      (fun j hj1 hj2 => hall j (by omega) hj2)
      (fun hn0 => by
        have : attempt = maxRetries := by omega
        rw [this])
    simp only [retryAux, he, hrec]
    by_cases hn : n = 0
    · subst hn
      have : ¬attempt < maxRetries := by omega
      simp [this]
    · have : attempt < maxRetries := by omega
      have hrep : delayMs :: List.replicate (n - 1) delayMs =
          List.replicate (n + 1 - 1) delayMs := by
        have h2 : n + 1 - 1 = (n - 1) + 1 := by omega
        rw [h2, List.replicate_succ]
      simp [this]
      exact hrep

/-! ## Claim theorems -/

/-- C9: `retryOperation(op, maxRetries, delayMs, name, id)` returns the
result of the first successful invocation of `op`, invokes `op` at most
`maxRetries` times with a fixed `delayMs` wait between consecutive
attempts, and when all `maxRetries` attempts fail it throws an error
whose message includes the operation name, the number of attempts, and
the last failure's cause. -/
theorem retryOperation_contract {α : Type} (op : Nat → Except String α)
    (maxRetries delayMs : Nat) (operationName : String) :
    ((retryOperation op maxRetries delayMs operationName).2.1 ≤ maxRetries)
    ∧ (∀ (k : Nat) (v : α), 1 ≤ k → k ≤ maxRetries → op k = Except.ok v →
        (∀ j, 1 ≤ j → j < k → ∃ e, op j = Except.error e) →
        retryOperation op maxRetries delayMs operationName =
          (Except.ok v, k, List.replicate (k - 1) delayMs))
    ∧ (∀ es : Nat → String, 1 ≤ maxRetries →
        (∀ j, 1 ≤ j → j ≤ maxRetries → op j = Except.error (es j)) →
        retryOperation op maxRetries delayMs operationName =
          (Except.error (operationName ++ " failed after " ++ toString maxRetries ++
              " attempts. Last error: " ++ es maxRetries),
           maxRetries, List.replicate (maxRetries - 1) delayMs)) := by
  refine ⟨retryAux_invocations_le op maxRetries delayMs operationName maxRetries 1 none, ?_, ?_⟩
  · intro k v h1 h2 h3 h4
    have hs := retryAux_first_success op maxRetries delayMs operationName maxRetries 1 none k v
      h1 (by omega) h2 h3 h4
    have hk : k - 1 + 1 = k := by omega
    rw [retryOperation, hs, hk]
  · intro es h1 h2
    have hs := retryAux_all_fail op maxRetries delayMs operationName es maxRetries 1 none
      (by omega) (fun j hj1 hj2 => h2 j hj1 hj2) (fun h0 => absurd h0 (by omega))
    rw [retryOperation, hs]
    rfl

/-- Witness for C9: an operation failing on attempt 1 and succeeding on
attempt 2, under `maxRetries = 3`, returns the attempt-2 value after two
invocations and one sleep. -/
theorem retryOperation_contract_witness :
    retryOperation (fun j => if j = 2 then Except.ok 7 else Except.error ("attempt" ++ toString j))
        3 100 "Upload segment" =
      (Except.ok 7, 2, List.replicate 1 100) := by
  exact (retryOperation_contract _ 3 100 "Upload segment").2.1 2 7 (by omega) (by omega) rfl
    (fun j hj1 hj2 => ⟨"attempt" ++ toString j, by
      have hj : j = 1 := by omega
      subst hj
      rfl⟩)

/-- C8: `markNameAsRecorded` flips a record to recorded only if it is
currently unrecorded: it sets `isRecorded = true` and `recordedAt` only
when `isRecorded` was false; applied to an already-recorded record it
performs no update, leaves the row unchanged, and returns
`success: false` with the distinguishing message
"Name was already recorded.". -/
theorem markNameAsRecorded_conditional (db : DB) (dbId now : Nat) (r : MartyrRecord)
    (h0 : dbId ≠ 0) (hr : dbFind db dbId = some r) :
    (r.isRecorded = true →
       markNameAsRecorded db dbId now = (db, ⟨false, "Name was already recorded."⟩))
    ∧ (r.isRecorded = false →
       markNameAsRecorded db dbId now =
         (dbSet db dbId { r with isRecorded := true, recordedAt := some now },
          ⟨true, "Marked " ++ r.enName ++ " as recorded."⟩)) := by
  constructor
  · intro h
    simp [markNameAsRecorded, h0, hr, h]
  · intro h
    simp [markNameAsRecorded, h0, hr, h]

/-- Witness for C8: committing record 3, which is already recorded,
changes nothing and reports "Name was already recorded.". -/
theorem markNameAsRecorded_conditional_witness :
    markNameAsRecorded dbW8 3 10 = (dbW8, ⟨false, "Name was already recorded."⟩) := by
  exact (markNameAsRecorded_conditional dbW8 3 10 ⟨"Alpha", true, some 2, none, none⟩
    (by decide) rfl).1 rfl

/-- C6: after every `receiveChunk` call with `chunkIndex` within the
session's `totalChunks` (the constraint the contract states), every
stored chunk array still has exactly `totalChunks` entries, and the
touched session's `totalChunks` is the value fixed before the call
(at session creation). -/
theorem receiveChunk_preserves_chunkSlots_length (store : ChunkStore) (uploadId : String)
    (chunkIndex totalChunks : Nat) (bytes : List Nat) (selectedNameId : Nat) (fileName : String)
    (now : Nat) (hwf : storeWF store)
    (hidx : chunkIndex < sessionTotal store uploadId totalChunks) :
    storeWF (receiveChunk store uploadId chunkIndex totalChunks bytes selectedNameId fileName now).2
    ∧ ∃ u, storeFind
            (receiveChunk store uploadId chunkIndex totalChunks bytes selectedNameId fileName now).2
            uploadId = some u
        ∧ u.chunks.length = u.totalChunks
        ∧ u.totalChunks = sessionTotal store uploadId totalChunks := by
  obtain ⟨hlen, htot⟩ := receivedSession_length store uploadId chunkIndex totalChunks bytes
    selectedNameId fileName now hwf hidx
  have hstep : (receiveChunk store uploadId chunkIndex totalChunks bytes selectedNameId fileName now).2 =
      storeSet store uploadId
        (receivedSession store uploadId chunkIndex totalChunks bytes selectedNameId fileName now) := by
    rw [receiveChunk_eq]
  rw [hstep]
  constructor
  · intro id u hu
    by_cases hid : id = uploadId
    · subst hid
      rw [storeFind_storeSet_self] at hu
      cases hu
      exact hlen
    · rw [storeFind_storeSet_ne _ _ _ _ hid] at hu
      exact hwf id u hu
  · exact ⟨_, storeFind_storeSet_self _ _ _, hlen, htot⟩

/-- Witness for C6: the first chunk of a fresh three-chunk session keeps
the slot array at length 3 and the stored `totalChunks` at 3. -/
theorem receiveChunk_preserves_chunkSlots_length_witness :
    storeWF (receiveChunk [] "id1" 0 3 [9] 2 "f.webm" 1).2
    ∧ ∃ u, storeFind (receiveChunk [] "id1" 0 3 [9] 2 "f.webm" 1).2 "id1" = some u
        ∧ u.chunks.length = u.totalChunks
        ∧ u.totalChunks = sessionTotal [] "id1" 3 := by
  exact receiveChunk_preserves_chunkSlots_length [] "id1" 0 3 [9] 2 "f.webm" 1
    (fun id u h => by simp [storeFind] at h) (by decide)

/-- C7: chunk receipt is idempotent — sending chunk `k` twice with
different bytes leaves the store exactly as if only the second send had
happened (the second write wins) — and the `receivedChunks` count the
route returns never exceeds the returned `totalChunks`. -/
theorem receiveChunk_idempotent (store : ChunkStore) (uploadId : String)
    (chunkIndex totalChunks : Nat) (b1 b2 : List Nat) (selectedNameId : Nat) (fileName : String)
    (t1 t2 : Nat) (hwf : storeWF store)
    (hidx : chunkIndex < sessionTotal store uploadId totalChunks) :
    (receiveChunk (receiveChunk store uploadId chunkIndex totalChunks b1 selectedNameId fileName t1).2
        uploadId chunkIndex totalChunks b2 selectedNameId fileName t2).2
      = (receiveChunk store uploadId chunkIndex totalChunks b2 selectedNameId fileName t2).2
    ∧ (receiveChunk store uploadId chunkIndex totalChunks b2 selectedNameId fileName t2).1.receivedChunks
        ≤ (receiveChunk store uploadId chunkIndex totalChunks b2 selectedNameId fileName t2).1.totalChunks := by
  constructor
  · have hstep1 : (receiveChunk store uploadId chunkIndex totalChunks b1 selectedNameId fileName t1).2 =
        storeSet store uploadId
          (receivedSession store uploadId chunkIndex totalChunks b1 selectedNameId fileName t1) := by
      rw [receiveChunk_eq]
    rw [hstep1]
    have hstep2 : ∀ (st : ChunkStore) (b : List Nat) (t : Nat),
        (receiveChunk st uploadId chunkIndex totalChunks b selectedNameId fileName t).2 =
          storeSet st uploadId
            (receivedSession st uploadId chunkIndex totalChunks b selectedNameId fileName t) := by
      intro st b t
      rw [receiveChunk_eq]
    rw [hstep2, hstep2]
    rw [storeSet_storeSet]
    have hsess : receivedSession
        (storeSet store uploadId
          (receivedSession store uploadId chunkIndex totalChunks b1 selectedNameId fileName t1))
        uploadId chunkIndex totalChunks b2 selectedNameId fileName t2 =
        receivedSession store uploadId chunkIndex totalChunks b2 selectedNameId fileName t2 := by
      cases h : storeFind store uploadId with
      | some u =>
        simp [receivedSession, h, storeFind_storeSet_self, jsArraySet_jsArraySet]
      | none =>
        simp [receivedSession, h, storeFind_storeSet_self, jsArraySet_jsArraySet]
    rw [hsess]
  · obtain ⟨hlen, _⟩ := receivedSession_length store uploadId chunkIndex totalChunks b2
      selectedNameId fileName t2 hwf hidx
    have hresp : (receiveChunk store uploadId chunkIndex totalChunks b2 selectedNameId fileName t2).1 =
        ⟨200,
          (receivedSession store uploadId chunkIndex totalChunks b2 selectedNameId fileName t2).chunks.all
            (fun c => !(c == Slot.jsNull)),
          ((receivedSession store uploadId chunkIndex totalChunks b2 selectedNameId fileName t2).chunks.filter
            Slot.truthy).length,
          (receivedSession store uploadId chunkIndex totalChunks b2 selectedNameId fileName t2).totalChunks⟩ := by
      rw [receiveChunk_eq]
    rw [hresp]
    calc ((receivedSession store uploadId chunkIndex totalChunks b2 selectedNameId fileName t2).chunks.filter
            Slot.truthy).length
        ≤ (receivedSession store uploadId chunkIndex totalChunks b2 selectedNameId fileName t2).chunks.length :=
          List.length_filter_le _ _
      _ = (receivedSession store uploadId chunkIndex totalChunks b2 selectedNameId fileName t2).totalChunks :=
          hlen

/-- Witness for C7: resending chunk 0 of a two-chunk session with new
bytes equals sending only the new bytes, and the received count stays
within bounds. -/
theorem receiveChunk_idempotent_witness :
    (receiveChunk (receiveChunk [] "id2" 0 2 [1] 5 "g.webm" 1).2 "id2" 0 2 [2] 5 "g.webm" 2).2
      = (receiveChunk [] "id2" 0 2 [2] 5 "g.webm" 2).2
    ∧ (receiveChunk [] "id2" 0 2 [2] 5 "g.webm" 2).1.receivedChunks
        ≤ (receiveChunk [] "id2" 0 2 [2] 5 "g.webm" 2).1.totalChunks := by
  exact receiveChunk_idempotent [] "id2" 0 2 [1] [2] 5 "g.webm" 1 2
    (fun id u h => by simp [storeFind] at h) (by decide)

/-- C1: the completeness gate of POST /finalize-video-upload tests
`chunk === undefined`, but unreceived slots hold the `null` fill value,
so on a session with an unfilled slot the gate does not fire: instead of
the 400 "Not all chunks received" response with no state change, the
handler reaches `Buffer.concat`, which throws on the `null` slot, and
the catch block mutates the record (`markNameAsUnrecorded` clears its
audio path) and deletes the session. -/
theorem finalize_incomplete_gate_never_fires :
    finalizeVideoUpload storeC1 dbC1 "abc" (Except.ok ()) 99 =
      (⟨500, "Error uploading video"⟩, [], [(7, ⟨"Gaza Name", false, none, none, none⟩)])
    ∧ (⟨500, "Error uploading video"⟩ : FinalizeResult) ≠ ⟨400, "Not all chunks received"⟩ := by
  constructor
  · rfl
  · decide

/-- C3 counterexample: a finalize attempt on the complete session
`"xyz"` that fails at the storage upload step still deletes the session
from the store, so the upload is not retryable. -/
theorem finalize_failure_deletes_session :
    (finalizeVideoUpload storeC3 dbC3 "xyz" (Except.error "connect ECONNREFUSED") 5).1.status = 500
    ∧ storeFind
        (finalizeVideoUpload storeC3 dbC3 "xyz" (Except.error "connect ECONNREFUSED") 5).2.1
        "xyz" = none := by
  constructor
  · rfl
  · rfl

/-- C3 amended: the finalize handler leaves the store unchanged only when
it fails before the processing block starts (unknown `uploadId`, or the
`undefined`-slot gate); once processing starts, the session is removed
from the store on success and on failure alike. -/
theorem finalize_session_removal (store : ChunkStore) (db : DB) (uploadId : String)
    (uploadFileResult : Except String Unit) (now : Nat) :
    (storeFind store uploadId = none →
       finalizeVideoUpload store db uploadId uploadFileResult now =
         (⟨404, "Upload not found"⟩, store, db))
    ∧ (∀ u, storeFind store uploadId = some u →
        u.chunks.any (fun c => c == Slot.jsUndefined) = true →
        finalizeVideoUpload store db uploadId uploadFileResult now =
          (⟨400, "Not all chunks received"⟩, store, db))
    ∧ (∀ u, storeFind store uploadId = some u →
        u.chunks.any (fun c => c == Slot.jsUndefined) = false →
        (finalizeVideoUpload store db uploadId uploadFileResult now).2.1 =
          storeErase store uploadId) := by
  refine ⟨?_, ?_, ?_⟩
  · intro h
    simp [finalizeVideoUpload, h]
  · intro u hu hany
    simp [finalizeVideoUpload, hu, hany]
  · intro u hu hany
    cases hb : bufferConcat u.chunks with
    | error e =>
      simp [finalizeVideoUpload, hu, hany, hb]
    | ok bs =>
      cases uploadFileResult with
      | error e => simp [finalizeVideoUpload, hu, hany, hb]
      | ok u2 => simp [finalizeVideoUpload, hu, hany, hb]

/-- Witness for C3 amended: finalizing the complete session `"w"`
removes it from the store. -/
theorem finalize_session_removal_witness :
    (finalizeVideoUpload storeW3 [] "w" (Except.ok ()) 3).2.1 = storeErase storeW3 "w" := by
  exact (finalize_session_removal storeW3 [] "w" (Except.ok ()) 3).2.2
    ⟨[Slot.buf [1]], 1, 0, 4, "w.webm"⟩ rfl rfl

/-- C2 counterexample: record 1 is recorded (`isRecorded = true`) before
the attempt; injecting a remux failure triggers the rollback, which sets
`isRecorded = false` — the field is changed from its pre-attempt value. -/
theorem processVideo_rollback_changes_isRecorded :
    (dbFind dbC2 1).map MartyrRecord.isRecorded = some true
    ∧ (dbFind (processVideo dbC2 1 envRemuxFail 9).2.1 1).map MartyrRecord.isRecorded =
        some false := by
  constructor
  · rfl
  · rfl

/-- C2 amended: for every injected stage failure (remux failure,
transcode failure, transcode timeout, publish failure) the rollback
leaves the record with `isRecorded = false`, `recordedAt` cleared and the
audio path cleared, and never touches the video path; in particular
`isRecorded` is unchanged from its pre-attempt value exactly when the
record was unrecorded before the attempt. -/
theorem processVideo_rollback_on_stage_failure (db : DB) (dbId now : Nat) (r : MartyrRecord)
    (env : PipelineEnv) (h0 : dbId ≠ 0) (hr : dbFind db dbId = some r)
    (hf : stageFailureInjected env) :
    dbFind (processVideo db dbId env now).2.1 dbId =
      some { r with isRecorded := false, recordedAt := none, processedAudioPath := none } := by
  obtain ⟨hdl, hrest⟩ := hf
  cases hd : env.downloadResult with
  | error e0 =>
    rw [hd] at hdl
    simp [exceptOk] at hdl
  | ok u0 =>
  rcases hrest with ⟨e, hre⟩ | ⟨hrok, e, hte⟩ | ⟨hrok, htok, hpub⟩
  · simp only [processVideo, hd, hre]
    exact dbFind_markNameAsUnrecorded db dbId r h0 hr
  · cases hr2 : env.remuxResult with
    | error e2 =>
      rw [hr2] at hrok
      simp [exceptOk] at hrok
    | ok u2 =>
      simp only [processVideo, hd, hr2, hte]
      exact dbFind_markNameAsUnrecorded db dbId r h0 hr
  · cases hr2 : env.remuxResult with
    | error e2 =>
      rw [hr2] at hrok
      simp [exceptOk] at hrok
    | ok u2 =>
    cases ht2 : env.transcodeResult with
    | error e3 =>
      rw [ht2] at htok
      simp [exceptOk] at htok
    | ok u3 =>
    have hone := dbFind_markNameAsUnrecorded db dbId r h0 hr
    have htwo := dbFind_markNameAsUnrecorded (markNameAsUnrecorded db dbId).1 dbId
      { r with isRecorded := false, recordedAt := none, processedAudioPath := none } h0 hone
    rcases hpub with ⟨e, hme⟩ | ⟨hmok, s, hs, hsf⟩
    · simp only [processVideo, hd, hr2, ht2, hme]
      exact htwo
    · cases hm2 : env.manifestUploadResult with
      | error e4 =>
        rw [hm2] at hmok
        simp [exceptOk] at hmok
      | ok u4 =>
      have hall : env.segments.all (fun t => exceptOk (env.segmentUploadResult t)) = false := by
        by_cases hb : env.segments.all (fun t => exceptOk (env.segmentUploadResult t))
        · exfalso
          have := List.all_eq_true.mp hb s hs
          rw [hsf] at this
          exact Bool.false_ne_true this
        · exact Bool.eq_false_iff.mpr hb
      simp only [processVideo, hd, hr2, ht2, hm2, hall, Bool.false_eq_true, if_false]
      exact htwo

/-- Witness for C2 amended: injecting a transcode timeout on unrecorded
record 2 leaves it unrecorded with cleared fields. -/
theorem processVideo_rollback_on_stage_failure_witness :
    dbFind (processVideo dbW2 2 envW2 7).2.1 2 =
      some ⟨"Witness Name", false, none, none, none⟩ := by
  exact processVideo_rollback_on_stage_failure dbW2 2 7
    ⟨"Witness Name", false, none, some "audio/w.wav", none⟩ envW2 (by decide) rfl
    ⟨rfl, Or.inr (Or.inl ⟨rfl, "FFmpeg processing timed out", rfl⟩)⟩

/-- C4 counterexample: record 2's failed video attempt (remux failure)
does not clear `processedVideoPath` — the rollback clears the audio path
regardless of the attempt's media kind, and never the video path. -/
theorem rollback_leaves_video_path :
    (dbFind (processVideo dbC4 2 envRemuxFail 9).2.1 2).map MartyrRecord.processedVideoPath =
      some (some "video/2/manifest.m3u8")
    ∧ (dbFind (processVideo dbC4 2 envRemuxFail 9).2.1 2).map MartyrRecord.processedVideoPath ≠
        some none := by
  constructor
  · rfl
  · decide

/-- C4 amended: `markNameAsUnrecorded` unconditionally sets
`isRecorded = false`, clears `recordedAt`, and clears the processed
*audio* path, whatever the failed attempt's media kind; the processed
video path is never cleared. -/
theorem markNameAsUnrecorded_clears_audio_only (db : DB) (dbId : Nat) (r : MartyrRecord)
    (h0 : dbId ≠ 0) (hr : dbFind db dbId = some r) :
    markNameAsUnrecorded db dbId =
      (dbSet db dbId { r with isRecorded := false, recordedAt := none, processedAudioPath := none },
       ⟨true, "Marked " ++ r.enName ++ " as unrecorded."⟩) := by
  simp [markNameAsUnrecorded, h0, hr]

/-- Witness for C4 amended: rolling back record 5 clears its audio path
and recording state but keeps its video path. -/
theorem markNameAsUnrecorded_clears_audio_only_witness :
    markNameAsUnrecorded dbW4 5 =
      ([(5, ⟨"Joe", false, none, none, some "video/5/m.m3u8"⟩)],
       ⟨true, "Marked Joe as unrecorded."⟩) := by
  exact markNameAsUnrecorded_clears_audio_only dbW4 5
    ⟨"Joe", true, some 1, some "audio/j.wav", some "video/5/m.m3u8"⟩ (by decide) rfl

/-- C5: if any segment upload ultimately fails after exhausting its
retries, the whole publish fails (HTTP 500) and the record is never
committed in that attempt: neither `markNameAsRecorded` nor
`updateProcessedVideoPath` appears in the action trace, so no record ever
references a manifest with an incomplete segment set. -/
theorem processVideo_no_commit_on_segment_failure (db : DB) (dbId now : Nat) (env : PipelineEnv)
    (s : String) (hdl : env.downloadResult = Except.ok ()) (hrm : env.remuxResult = Except.ok ())
    (htc : env.transcodeResult = Except.ok ()) (hmf : env.manifestUploadResult = Except.ok ())
    (hs : s ∈ env.segments) (hsf : exceptOk (env.segmentUploadResult s) = false) :
    (processVideo db dbId env now).1 = 500
    ∧ PipelineAct.markRecorded ∉ (processVideo db dbId env now).2.2
    ∧ PipelineAct.updateVideoPath ∉ (processVideo db dbId env now).2.2 := by
  have hall : env.segments.all (fun t => exceptOk (env.segmentUploadResult t)) = false := by
    by_cases hb : env.segments.all (fun t => exceptOk (env.segmentUploadResult t))
    · exfalso
      have := List.all_eq_true.mp hb s hs
      rw [hsf] at this
      exact Bool.false_ne_true this
    · exact Bool.eq_false_iff.mpr hb
  have hred : processVideo db dbId env now =
      (500, (markNameAsUnrecorded (markNameAsUnrecorded db dbId).1 dbId).1,
       PipelineAct.uploadManifest :: env.segments.map PipelineAct.uploadSegment ++
         [PipelineAct.markUnrecorded, PipelineAct.markUnrecorded]) := by
    simp only [processVideo, hdl, hrm, htc, hmf, hall, Bool.false_eq_true, if_false]
  rw [hred]
  refine ⟨rfl, ?_, ?_⟩
  · simp [List.mem_map]
  · simp [List.mem_map]

/-- Witness for C5: with segment `"seg1.ts"` of three failing all
retries, the run returns 500 and the trace has no commit action. -/
theorem processVideo_no_commit_on_segment_failure_witness :
    (processVideo [] 1 envW5 0).1 = 500
    ∧ PipelineAct.markRecorded ∉ (processVideo [] 1 envW5 0).2.2
    ∧ PipelineAct.updateVideoPath ∉ (processVideo [] 1 envW5 0).2.2 := by
  exact processVideo_no_commit_on_segment_failure [] 1 0 envW5 "seg1.ts" rfl rfl rfl rfl
    (by simp [envW5]) rfl

/-- C10: for every filename containing `..`, `/`, `\`, or any character
outside `[a-zA-Z0-9_.-]`, both GET /api/audio/:filename and
GET /api/video/:filename answer 400 "Invalid filename." without calling
`getFileUrl`, and every object name either endpoint ever looks up is
`audio/<g>` resp. `video/<g>` for a `g` matching the safe pattern. -/
theorem media_filename_guard (getFileUrl : String → Except String String) (filename : String) :
    ((hasDotDot filename.toList = true ∨ filename.toList.contains '/' = true
        ∨ filename.toList.contains '\\' = true
        ∨ ∃ c ∈ filename.toList, isSafeFilenameChar c = false) →
      getAudioByFilename getFileUrl filename = (MediaResponse.badRequest "Invalid filename.", [])
      ∧ getVideoByFilename getFileUrl filename = (MediaResponse.badRequest "Invalid filename.", []))
    ∧ (∀ obj ∈ (getAudioByFilename getFileUrl filename).2,
        ∃ g, obj = "audio/" ++ g ∧ validFilename g = true)
    ∧ (∀ obj ∈ (getVideoByFilename getFileUrl filename).2,
        ∃ g, obj = "video/" ++ g ∧ validFilename g = true) := by
  have hbad : (hasDotDot filename.toList = true ∨ filename.toList.contains '/' = true
      ∨ filename.toList.contains '\\' = true
      ∨ ∃ c ∈ filename.toList, isSafeFilenameChar c = false) →
      validFilename filename = false := by
    intro h
    cases hvt : validFilename filename with
    | false => rfl
    | true =>
      exfalso
      simp [validFilename] at hvt
      obtain ⟨⟨⟨⟨hne, hdd⟩, hsl⟩, hbs⟩, hall⟩ := hvt
      rcases h with h | h | h | ⟨c, hc, hcbad⟩
      · have h2 : hasDotDot filename.data = true := h
        rw [h2] at hdd
        exact Bool.false_ne_true hdd.symm
      · have h2 : filename.data.contains '/' = true := h
        have h3 : '/' ∈ filename.data := by simpa using h2
        exact hsl h3
      · have h2 : filename.data.contains '\\' = true := h
        have h3 : '\\' ∈ filename.data := by simpa using h2
        exact hbs h3
      · have h2 : isSafeFilenameChar c = true := hall c hc
        rw [hcbad] at h2
        exact Bool.false_ne_true h2
  refine ⟨?_, ?_, ?_⟩
  · intro h
    have hv := hbad h
    constructor
    · simp [getAudioByFilename, hv]
    · simp [getVideoByFilename, hv]
  · intro obj hobj
    by_cases hv : validFilename filename = true
    · have hlist : (getAudioByFilename getFileUrl filename).2 = ["audio/" ++ filename] := by
        cases ho : getFileUrl ("audio/" ++ filename) with
        | ok url => simp [getAudioByFilename, hv, ho]
        | error e => simp [getAudioByFilename, hv, ho]
      rw [hlist] at hobj
      simp only [List.mem_singleton] at hobj
      exact ⟨filename, hobj, hv⟩
    · have hvf : validFilename filename = false := by
        revert hv
        cases validFilename filename <;> simp
      have hlist : (getAudioByFilename getFileUrl filename).2 = [] := by
        simp [getAudioByFilename, hvf]
      rw [hlist] at hobj
      simp at hobj
  · intro obj hobj
    by_cases hv : validFilename filename = true
    · have hlist : (getVideoByFilename getFileUrl filename).2 = ["video/" ++ filename] := by
        cases ho : getFileUrl ("video/" ++ filename) with
        | ok url => simp [getVideoByFilename, hv, ho]
        | error e => simp [getVideoByFilename, hv, ho]
      rw [hlist] at hobj
      simp only [List.mem_singleton] at hobj
      exact ⟨filename, hobj, hv⟩
    · have hvf : validFilename filename = false := by
        revert hv
        cases validFilename filename <;> simp
      have hlist : (getVideoByFilename getFileUrl filename).2 = [] := by
        simp [getVideoByFilename, hvf]
      rw [hlist] at hobj
      simp at hobj

/-- Witness for C10: the traversal attempt `"../etc/passwd"` is rejected
by both endpoints with no storage lookup. -/
theorem media_filename_guard_witness :
    getAudioByFilename (fun _ => Except.ok "http://minio/presigned") "../etc/passwd" =
      (MediaResponse.badRequest "Invalid filename.", [])
    ∧ getVideoByFilename (fun _ => Except.ok "http://minio/presigned") "../etc/passwd" =
      (MediaResponse.badRequest "Invalid filename.", []) := by
  exact (media_filename_guard (fun _ => Except.ok "http://minio/presigned") "../etc/passwd").1
    (Or.inl (by decide))

end GazaNameProject
